import Mathlib

/-!
Shallow embedding of the S3-Bucket-Enumerator program
(file S3-Bucket-Enumerator.py).

Python strings are modelled as lists of characters (`Str`).  The external
`aws` CLI invocations performed through run_command are modelled as oracles
handing back the (stdout, stderr) pair of each call; the engine logic that
inspects those strings is translated function by function from the source.
-/

set_option autoImplicit false

/-- Python strings, modelled as lists of characters. -/
abbrev Str := List Char

/-- Coercion from Lean string literals into the model. -/
def str (s : String) : Str := s.data

/-- Python str.split / str.strip whitespace class (ASCII subset). -/
def isSpace (c : Char) : Bool :=
  c = ' ' || c = '\t' || c = '\n' || c = '\r' || c = '\u000B' || c = '\u000C'

/-- Does the second list start with the first one? -/
def listStartsWith : Str → Str → Bool
  | [], _ => true
  | _ :: _, [] => false
  | p :: ps, c :: cs => p == c && listStartsWith ps cs

/-- Python substring containment: `needle in haystack`. -/
def containsSub (needle : Str) : Str → Bool
  | [] => needle.isEmpty
  | c :: rest => listStartsWith needle (c :: rest) || containsSub needle rest

/-- Python str.split(sep) for a one-character separator: keeps empty pieces,
never returns an empty list. -/
def splitOnChar (sep : Char) : Str → List Str
  | [] => [[]]
  | c :: rest =>
    if c = sep then [] :: splitOnChar sep rest
    else
      match splitOnChar sep rest with
      | [] => [[c]]
      | s :: ss => (c :: s) :: ss

/-- Accumulator pass behind `splitWs`; `cur` holds the current token reversed. -/
def splitWsAux : Str → Str → List Str
  | [], cur => if cur.isEmpty then [] else [cur.reverse]
  | c :: rest, cur =>
    if isSpace c then
      if cur.isEmpty then splitWsAux rest []
      else cur.reverse :: splitWsAux rest []
    else splitWsAux rest (c :: cur)

/-- Python str.split() with no argument: split on runs of whitespace,
dropping empty tokens. -/
def splitWs (s : Str) : List Str := splitWsAux s []

/-- Decimal digit string to number. -/
def digitsToNat (ds : Str) : Nat :=
  ds.foldl (fun acc c => acc * 10 + (c.toNat - '0'.toNat)) 0

/-- Strip leading and trailing whitespace (Python str.strip()). -/
def stripWs (s : Str) : Str :=
  ((s.dropWhile (fun c => isSpace c)).reverse.dropWhile (fun c => isSpace c)).reverse

/-- Python int(s): optional surrounding whitespace, optional sign, at least
one decimal digit, else a ValueError (modelled as none).  Underscore digit
grouping is not modelled; it never occurs in aws CLI listings. -/
def pyInt? (s : Str) : Option Int :=
  match stripWs s with
  | '-' :: ds =>
    if !ds.isEmpty && ds.all Char.isDigit then some (-(digitsToNat ds : Int)) else none
  | '+' :: ds =>
    if !ds.isEmpty && ds.all Char.isDigit then some (digitsToNat ds) else none
  | ds =>
    if !ds.isEmpty && ds.all Char.isDigit then some (digitsToNat ds) else none

/-- One parsed listing record (the dict built in list_s3_objects). -/
structure StorageObject where
  date : Str
  time : Str
  size : Int
  key : Str
  deriving DecidableEq, Repr

/-- The loop body of list_s3_objects on one line.
Outer none = the int() call raised (ValueError escapes the function);
some none = the line was skipped (fewer than 4 fields);
some (some o) = the record parsed. -/
def parseLine (line : Str) : Option (Option StorageObject) :=
  let parts := splitWs line
  if 4 ≤ parts.length then
    match pyInt? (parts.getD 2 []) with
    | none => none
    | some n => some (some ⟨parts.getD 0 [], parts.getD 1 [], n, parts.getD 3 []⟩)
  else some none

/-- The parsing loop of list_s3_objects over the non-blank stdout lines:
a raising line aborts the whole enumeration, a skipped line contributes
nothing. -/
def parseLines : List Str → Option (List StorageObject)
  | [] => some []
  | l :: ls =>
    match parseLine l with
    | none => none
    | some none => parseLines ls
    | some (some o) => (parseLines ls).map (fun os => o :: os)

/-- stdout.splitlines() followed by the `if line.strip()` filter of the
source: newline-separated pieces that contain at least one non-whitespace
character. -/
def nonblankLines (s : Str) : List Str :=
  (splitOnChar '\n' s).filter (fun l => l.any (fun c => !isSpace c))

/-- list_s3_objects, as a function of the (stdout, stderr) of the single
recursive aws s3 ls call.  On any non-empty stderr the source prints the
error and returns the empty list; otherwise it parses stdout (none = the
unguarded int() raised). -/
def list_s3_objects (stdout stderr : Str) : Option (List StorageObject) :=
  if stderr ≠ [] then some []
  else parseLines (nonblankLines stdout)

/-- The fixed ordered candidate region list of the source. -/
def CANDIDATE_REGIONS : List Str :=
  [str "us-east-1", str "us-east-2", str "us-west-1", str "us-west-2", str "af-south-1",
   str "ap-east-1", str "ap-south-1", str "ap-south-2", str "ap-northeast-1", str "ap-northeast-2",
   str "ap-northeast-3", str "ap-southeast-1", str "ap-southeast-2", str "ap-southeast-3",
   str "ap-southeast-4", str "ap-southeast-5", str "ap-southeast-7", str "ca-central-1",
   str "ca-west-1", str "eu-central-1", str "eu-central-2", str "eu-west-1", str "eu-west-2",
   str "eu-west-3", str "eu-south-1", str "eu-north-1", str "il-central-1", str "me-south-1",
   str "mx-central-1", str "sa-east-1"]

/-- auto_detect_region: iterate the candidate regions in order; `probe` is the
(stdout, stderr) of the unauthenticated ls call in one region.  The source
accepts a region when stderr does not contain the text An error occurred AND
stdout is truthy (non-empty). -/
def auto_detect_region (probe : Str → Str × Str) : List Str → Option Str
  | [] => none
  | r :: rs =>
    if !containsSub (str "An error occurred") (probe r).2 && !(probe r).1.isEmpty
    then some r
    else auto_detect_region probe rs

/-- The acceptance test applied by auto_detect_region to the CLI result of one
candidate region, written out once so that theorems can refer to it. -/
def acceptRegion (p : Str × Str) : Bool :=
  !containsSub (str "An error occurred") p.2 && !p.1.isEmpty

/-- check_read_access as a function of the (stdout, stderr) of the scoped
ls call.  stdout is accepted but never inspected, as in the source. -/
def check_read_access (_stdout stderr : Str) : Bool :=
  if containsSub (str "AccessDenied") stderr || containsSub (str "An error occurred") stderr
  then false
  else true

/-- Observable outcome of one write probe: the returned boolean and whether
the cleanup aws s3 rm call was issued at all. -/
structure WriteProbe where
  canWrite : Bool
  deleteIssued : Bool
  deriving DecidableEq, Repr

/-- check_write_access as a function of the (stdout, stderr) of the canary
upload and of the cleanup delete.  The random canary filename and the local
temp file are pure I/O plumbing inside the issued command strings and do not
influence the control flow.  The source never looks at the output of the
delete call, so both delete components are accepted and ignored. -/
def check_write_access (_uploadStdout uploadStderr _deleteStdout _deleteStderr : Str) :
    WriteProbe :=
  if containsSub (str "AccessDenied") uploadStderr ||
     containsSub (str "An error occurred") uploadStderr
  then ⟨false, false⟩
  else ⟨true, true⟩

/-- obj["key"].split('/')[0]: the top-level folder of an object key. -/
def topFolder (k : Str) : Str := (splitOnChar '/' k).headD []

/-- groups.setdefault(folder, []).append(obj) over an insertion-ordered dict,
modelled as an association list: append to the first entry with this key,
or add a fresh entry at the end. -/
def group_insert (gs : List (Str × List StorageObject)) (f : Str) (o : StorageObject) :
    List (Str × List StorageObject) :=
  match gs with
  | [] => [(f, [o])]
  | (g, l) :: rest =>
    if g = f then (g, l ++ [o]) :: rest else (g, l) :: group_insert rest f o

/-- The body of the grouping loop for one object. -/
def groupStep (gs : List (Str × List StorageObject)) (o : StorageObject) :
    List (Str × List StorageObject) :=
  group_insert gs (topFolder o.key) o

/-- group_objects_by_folder: fold the objects into the insertion-ordered
dictionary. -/
def group_objects_by_folder (objects : List StorageObject) :
    List (Str × List StorageObject) :=
  objects.foldl groupStep []

/-- First-match lookup in the grouping dictionary (Python groups[folder]). -/
def lookupGrp : List (Str × List StorageObject) → Str → List StorageObject
  | [], _ => []
  | (g, l) :: rest, f => if g = f then l else lookupGrp rest f

/-- The key list of the grouping dictionary (Python groups.keys(), in
insertion order). -/
def gkeys (gs : List (Str × List StorageObject)) : List Str :=
  gs.map (fun g => g.1)

/-- The permission loop of main: for each folder of the grouping, probe read
and write on folder + "/".  readO gives the (stdout, stderr) of the read ls
call; writeO gives the (stdout, stderr) of the canary upload followed by the
(stdout, stderr) of the cleanup delete. -/
def compute_permissions (groups : List (Str × List StorageObject))
    (readO : Str → Str × Str) (writeO : Str → (Str × Str) × (Str × Str)) :
    List (Str × Bool × Bool) :=
  groups.map (fun g =>
    let fp := g.1 ++ str "/"
    (g.1, check_read_access (readO fp).1 (readO fp).2,
      (check_write_access ((writeO fp).1).1 ((writeO fp).1).2
        ((writeO fp).2).1 ((writeO fp).2).2).canWrite))

/-- sum(obj["size"] for obj in objects), computed in main. -/
def total_size (objects : List StorageObject) : Int :=
  (objects.map (fun o => o.size)).sum

/-- len(objects), computed in main. -/
def total_files (objects : List StorageObject) : Nat :=
  objects.length

/-- The observable outcome of main after the region is known:
crashed = an uncaught exception escaped (the unguarded int() in parsing);
noObjects = the early return printing No objects found in bucket;
report = the data handed to the printers and the HTML report. -/
inductive RunOutcome where
  | crashed : RunOutcome
  | noObjects : RunOutcome
  | report (objects : List StorageObject)
      (groups : List (Str × List StorageObject))
      (perms : List (Str × Bool × Bool))
      (totalSize : Int) (totalFiles : Nat) : RunOutcome
  deriving DecidableEq, Repr

/-- The pipeline of main from the enumeration call onwards: list the objects
(stdout, stderr of the recursive ls call), return early if the list is empty,
otherwise group, probe permissions per folder and assemble the reported
values. -/
def main_after_region (stdout stderr : Str) (readO : Str → Str × Str)
    (writeO : Str → (Str × Str) × (Str × Str)) : RunOutcome :=
  match list_s3_objects stdout stderr with
  | none => RunOutcome.crashed
  | some [] => RunOutcome.noObjects
  | some (o :: rest) =>
    let objs := o :: rest
    let groups := group_objects_by_folder objs
    RunOutcome.report objs groups (compute_permissions groups readO writeO)
      (total_size objs) (total_files objs)

theorem lookupGrp_insert (gs : List (Str × List StorageObject)) (f f' : Str)
    (o : StorageObject) :
    lookupGrp (group_insert gs f o) f' =
      if f = f' then lookupGrp gs f' ++ [o] else lookupGrp gs f' := by
  induction gs with
  | nil =>
    by_cases h : f = f' <;> simp [group_insert, lookupGrp, h]
  | cons hd tl ih =>
    obtain ⟨g, l⟩ := hd
    by_cases hg : g = f
    · subst hg
      by_cases h : g = f' <;> simp [group_insert, lookupGrp, h]
    · by_cases h : g = f'
      · subst h
        have hne : f ≠ g := fun e => hg e.symm
        simp [group_insert, lookupGrp, hg, hne]
      · simp [group_insert, lookupGrp, hg, h, ih]

theorem lookupGrp_foldl (os : List StorageObject)
    (gs : List (Str × List StorageObject)) (f : Str) :
    lookupGrp (os.foldl groupStep gs) f =
      lookupGrp gs f ++ os.filter (fun o => decide (topFolder o.key = f)) := by
  induction os generalizing gs with
  | nil => simp
  | cons o os ih =>
    rw [List.foldl_cons, ih]
    simp only [groupStep]
    rw [lookupGrp_insert]
    by_cases h : topFolder o.key = f
    · simp [h, List.filter_cons]
    · simp [h, List.filter_cons]

theorem gkeys_insert (gs : List (Str × List StorageObject)) (f : Str)
    (o : StorageObject) :
    gkeys (group_insert gs f o) =
      if f ∈ gkeys gs then gkeys gs else gkeys gs ++ [f] := by
  induction gs with
  | nil => simp [group_insert, gkeys]
  | cons hd tl ih =>
    obtain ⟨g, l⟩ := hd
    by_cases hg : g = f
    · subst hg; simp [group_insert, gkeys]
    · have hne : f ≠ g := fun e => hg e.symm
      simp only [group_insert, if_neg hg, gkeys, List.map_cons] at ih ⊢
      rw [ih]
      by_cases hm : f ∈ List.map (fun g => g.1) tl
      · rw [if_pos hm, if_pos (List.mem_cons.mpr (Or.inr hm))]
      · rw [if_neg hm, if_neg (by simp [List.mem_cons, hne, hm])]
        simp

theorem mem_gkeys_insert (gs : List (Str × List StorageObject)) (f f' : Str)
    (o : StorageObject) :
    f ∈ gkeys (group_insert gs f' o) ↔ f ∈ gkeys gs ∨ f = f' := by
  rw [gkeys_insert]
  by_cases h : f' ∈ gkeys gs
  · simp only [h, if_true]
    constructor
    · exact fun hf => Or.inl hf
    · rintro (hf | rfl)
      · exact hf
      · exact h
  · simp [h, List.mem_append]

theorem mem_gkeys_foldl (os : List StorageObject)
    (gs : List (Str × List StorageObject)) (f : Str) :
    f ∈ gkeys (os.foldl groupStep gs) ↔
      f ∈ gkeys gs ∨ f ∈ os.map (fun o => topFolder o.key) := by
  induction os generalizing gs with
  | nil => simp
  | cons o os ih =>
    rw [List.foldl_cons, ih]
    simp only [groupStep]
    rw [mem_gkeys_insert]
    simp [List.mem_cons]
    tauto

theorem nodup_gkeys_insert (gs : List (Str × List StorageObject)) (f : Str)
    (o : StorageObject) (h : (gkeys gs).Nodup) :
    (gkeys (group_insert gs f o)).Nodup := by
  rw [gkeys_insert]
  by_cases hm : f ∈ gkeys gs
  · simpa [hm]
  · rw [if_neg hm, List.nodup_append_comm]
    simpa [List.nodup_cons, hm]

theorem nodup_gkeys_foldl (os : List StorageObject)
    (gs : List (Str × List StorageObject)) (h : (gkeys gs).Nodup) :
    (gkeys (os.foldl groupStep gs)).Nodup := by
  induction os generalizing gs with
  | nil => simpa
  | cons o os ih =>
    rw [List.foldl_cons]
    exact ih _ (nodup_gkeys_insert _ _ _ h)

theorem gsum_len_insert (gs : List (Str × List StorageObject)) (f : Str)
    (o : StorageObject) :
    ((group_insert gs f o).map (fun g => g.2.length)).sum =
      ((gs.map (fun g => g.2.length)).sum) + 1 := by
  induction gs with
  | nil => simp [group_insert]
  | cons hd tl ih =>
    obtain ⟨g, l⟩ := hd
    by_cases hg : g = f <;> simp [group_insert, hg, ih] <;> omega

theorem gsum_len_foldl (os : List StorageObject)
    (gs : List (Str × List StorageObject)) :
    ((os.foldl groupStep gs).map (fun g => g.2.length)).sum =
      ((gs.map (fun g => g.2.length)).sum) + os.length := by
  induction os generalizing gs with
  | nil => simp
  | cons o os ih =>
    rw [List.foldl_cons, ih]
    simp only [groupStep]
    rw [gsum_len_insert]
    simp [List.length_cons]
    omega

theorem gsum_size_insert (gs : List (Str × List StorageObject)) (f : Str)
    (o : StorageObject) :
    ((group_insert gs f o).map (fun g => (g.2.map (fun x => x.size)).sum)).sum =
      ((gs.map (fun g => (g.2.map (fun x => x.size)).sum)).sum) + o.size := by
  induction gs with
  | nil => simp [group_insert]
  | cons hd tl ih =>
    obtain ⟨g, l⟩ := hd
    by_cases hg : g = f <;>
      simp [group_insert, hg, ih, List.map_append, List.sum_append] <;> omega

theorem gsum_size_foldl (os : List StorageObject)
    (gs : List (Str × List StorageObject)) :
    ((os.foldl groupStep gs).map (fun g => (g.2.map (fun x => x.size)).sum)).sum =
      ((gs.map (fun g => (g.2.map (fun x => x.size)).sum)).sum) +
        (os.map (fun x => x.size)).sum := by
  induction os generalizing gs with
  | nil => simp
  | cons o os ih =>
    rw [List.foldl_cons, ih]
    simp only [groupStep]
    rw [gsum_size_insert]
    simp
    omega

theorem lookupGrp_of_mem (gs : List (Str × List StorageObject)) (f : Str)
    (l : List StorageObject) (hn : (gkeys gs).Nodup) (hm : (f, l) ∈ gs) :
    lookupGrp gs f = l := by
  induction gs with
  | nil => cases hm
  | cons hd tl ih =>
    obtain ⟨g, m⟩ := hd
    rcases List.mem_cons.mp hm with he | ht
    · obtain ⟨rfl, rfl⟩ := Prod.mk.injEq .. ▸ he
      simp_all [lookupGrp]
    · have hcons : (g :: gkeys tl).Nodup := by simpa [gkeys] using hn
      have hg : g ≠ f := by
        intro e
        subst e
        have hmem : g ∈ gkeys tl := by
          have := List.mem_map_of_mem (fun p => p.1) ht
          simpa [gkeys] using this
        exact (List.nodup_cons.mp hcons).1 hmem
      have hn' : (gkeys tl).Nodup := (List.nodup_cons.mp hcons).2
      simp [lookupGrp, hg]
      exact ih hn' ht

theorem splitOnChar_ne_nil (sep : Char) (s : Str) : splitOnChar sep s ≠ [] := by
  induction s with
  | nil => simp [splitOnChar]
  | cons c rest ih =>
    by_cases h : c = sep
    · simp [splitOnChar, h]
    · simp only [splitOnChar, if_neg h]
      cases hsp : splitOnChar sep rest <;> simp

theorem topFolder_eq_takeWhile (k : Str) :
    topFolder k = k.takeWhile (fun c => !(c == '/')) := by
  induction k with
  | nil => simp [topFolder, splitOnChar]
  | cons c rest ih =>
    by_cases h : c = '/'
    · subst h
      simp [topFolder, splitOnChar, List.takeWhile]
    · have hne := splitOnChar_ne_nil '/' rest
      have hb : (c == '/') = false := by simp [h]
      cases hsp : splitOnChar '/' rest with
      | nil => exact absurd hsp hne
      | cons s ss =>
        simp only [topFolder, splitOnChar, if_neg h, hsp, List.headD_cons,
          List.takeWhile, hb, Bool.not_false]
        simp only [topFolder, hsp, List.headD_cons] at ih
        simp [ih]

theorem splitWsAux_tok_ne_nil (s : Str) :
    ∀ (cur t : Str), t ∈ splitWsAux s cur → t ≠ [] := by
  induction s with
  | nil =>
    intro cur t ht
    simp only [splitWsAux] at ht
    by_cases h : cur.isEmpty
    · simp [h] at ht
    · simp only [h, Bool.false_eq_true, if_neg, if_false, List.mem_singleton] at ht
      subst ht
      simpa [List.isEmpty_iff] using h
  | cons c rest ih =>
    intro cur t ht
    simp only [splitWsAux] at ht
    by_cases hs : isSpace c
    · simp only [hs, if_true] at ht
      by_cases h : cur.isEmpty
      · simp only [h, if_true] at ht
        exact ih [] t ht
      · simp only [h, Bool.false_eq_true, if_false, List.mem_cons] at ht
        rcases ht with rfl | ht
        · simpa [List.isEmpty_iff] using h
        · exact ih [] t ht
    · simp only [hs, Bool.false_eq_true, if_false] at ht
      exact ih (c :: cur) t ht

theorem auto_detect_region_eq_find (probe : Str → Str × Str) (rs : List Str) :
    auto_detect_region probe rs = rs.find? (fun r => acceptRegion (probe r)) := by
  induction rs with
  | nil => simp [auto_detect_region, List.find?]
  | cons r rs ih =>
    have hstep : auto_detect_region probe (r :: rs) =
        if acceptRegion (probe r) = true then some r
        else auto_detect_region probe rs := rfl
    rw [hstep]
    by_cases h : acceptRegion (probe r) = true
    · rw [if_pos h]
      simp [List.find?_cons, h]
    · rw [if_neg h]
      have hb : acceptRegion (probe r) = false := by simpa using h
      simp [List.find?_cons, hb, ih]

/-- C3 counterexample: a transport-level failure of the scoped list call
(here the standard CLI connection-failure text, which is also what the
exception branch of run_command yields as stderr) contains neither
AccessDenied nor An error occurred, and check_read_access answers true for
it — refuting that the read probe returns false on every non-access-denied
error and never true. -/
theorem c3_read_probe_counterexample :
    str "Could not connect to the endpoint URL" ≠ [] ∧
    containsSub (str "AccessDenied") (str "Could not connect to the endpoint URL") = false ∧
    containsSub (str "An error occurred") (str "Could not connect to the endpoint URL") = false ∧
    check_read_access [] (str "Could not connect to the endpoint URL") = true := by
  decide

/-- C3 (amended): the read probe answers false exactly when the stderr of the
scoped list call contains AccessDenied or An error occurred; in particular it
is false on every access-denied-class error, but a transport failure whose
stderr carries neither substring is answered true. -/
theorem c3_read_probe_stringmatch :
    (∀ o e : Str, containsSub (str "AccessDenied") e = true →
      check_read_access o e = false) ∧
    (∀ o e : Str, containsSub (str "An error occurred") e = true →
      check_read_access o e = false) ∧
    (∀ o e : Str, containsSub (str "AccessDenied") e = false →
      containsSub (str "An error occurred") e = false →
      check_read_access o e = true) := by
  refine ⟨fun o e h => ?_, fun o e h => ?_, fun o e h1 h2 => ?_⟩ <;>
    simp [check_read_access, *]

/-- C3 witness: the amended read-probe theorem applied at a concrete
access-denied stderr and at a concrete clean call. -/
theorem c3_read_probe_stringmatch_witness :
    check_read_access []
      (str "An error occurred (AccessDenied) when calling the ListObjectsV2 operation") =
        false ∧
    check_read_access (str "2025-03-27 15:48:38 500 docs/a.txt") [] = true :=
  ⟨c3_read_probe_stringmatch.1 [] _ (by decide),
   c3_read_probe_stringmatch.2.2 (str "2025-03-27 15:48:38 500 docs/a.txt") [] (by decide)
     (by decide)⟩

/-- C4: when the canary upload succeeds (its stderr carries neither
AccessDenied nor An error occurred), check_write_access returns true and
issues the cleanup delete unconditionally, and the outcome of that delete —
never inspected by the source — cannot change the returned result. -/
theorem c4_write_probe_success_cleanup :
    ∀ uo ue dso dse dso' dse' : Str,
      containsSub (str "AccessDenied") ue = false →
      containsSub (str "An error occurred") ue = false →
      check_write_access uo ue dso dse = ⟨true, true⟩ ∧
      check_write_access uo ue dso dse = check_write_access uo ue dso' dse' := by
  intro uo ue dso dse dso' dse' h1 h2
  constructor <;> simp [check_write_access, h1, h2]

/-- C4 witness: a successful upload followed by a failing cleanup delete with
a real error message still reports canWrite = true with the delete issued,
identically to a run whose delete succeeded. -/
theorem c4_write_probe_success_cleanup_witness :
    check_write_access [] [] []
      (str "An error occurred (AccessDenied) when calling the DeleteObject operation") =
        ⟨true, true⟩ ∧
    check_write_access [] [] []
      (str "An error occurred (AccessDenied) when calling the DeleteObject operation") =
      check_write_access [] [] [] [] :=
  c4_write_probe_success_cleanup [] [] []
    (str "An error occurred (AccessDenied) when calling the DeleteObject operation") [] []
    (by decide) (by decide)

/-- C5: an access-denied upload (stderr containing AccessDenied) makes
check_write_access return false without ever issuing the delete call, and an
access-denied read likewise yields canRead = false. -/
theorem c5_access_denied_probes :
    (∀ uo ue dso dse : Str, containsSub (str "AccessDenied") ue = true →
      check_write_access uo ue dso dse = ⟨false, false⟩) ∧
    (∀ o e : Str, containsSub (str "AccessDenied") e = true →
      check_read_access o e = false) := by
  constructor
  · intro uo ue dso dse h
    simp [check_write_access, h]
  · intro o e h
    simp [check_read_access, h]

/-- C5 witness: the theorem applied at the concrete AWS CLI access-denied
messages of the put and list operations. -/
theorem c5_access_denied_probes_witness :
    check_write_access [] (str "An error occurred (AccessDenied) when calling the PutObject operation") [] [] =
      ⟨false, false⟩ ∧
    check_read_access [] (str "An error occurred (AccessDenied) when calling the ListObjectsV2 operation") =
      false :=
  ⟨c5_access_denied_probes.1 []
     (str "An error occurred (AccessDenied) when calling the PutObject operation") [] []
     (by decide),
   c5_access_denied_probes.2 []
     (str "An error occurred (AccessDenied) when calling the ListObjectsV2 operation")
     (by decide)⟩

/-- Backend scenario for region resolution: the first candidate region serves
the bucket with an empty but successful listing, the second serves it with
one record, every other region answers with a CLI error. -/
def probeRegionScenario : Str → Str × Str := fun r =>
  if r = str "us-east-1" then ([], [])
  else if r = str "us-east-2" then (str "2025-03-27 15:48:38 500 docs/a.txt", [])
  else ([], str "An error occurred (NoSuchBucket) when calling the ListObjectsV2 operation")

/-- C1 counterexample: the first candidate us-east-1 returns a non-error
result (an empty-but-successful listing: empty stderr, empty stdout), yet
auto_detect_region skips it because stdout is empty and returns the later
candidate us-east-2 — refuting that the first non-error candidate is always
returned. -/
theorem c1_region_resolution_counterexample :
    CANDIDATE_REGIONS.headD [] = str "us-east-1" ∧
    (probeRegionScenario (str "us-east-1")).2 = [] ∧
    auto_detect_region probeRegionScenario CANDIDATE_REGIONS = some (str "us-east-2") ∧
    str "us-east-2" ≠ str "us-east-1" := by
  decide

/-- C1 (amended): for every backend and candidate list, auto_detect_region
returns the first candidate whose probe has no An error occurred in stderr
AND a non-empty stdout, and none when no candidate qualifies (that is what
List.find? states); an empty-but-successful listing is not accepted. -/
theorem c1_region_resolution_amended :
    (∀ (probe : Str → Str × Str) (rs : List Str),
      auto_detect_region probe rs = rs.find? (fun r => acceptRegion (probe r))) ∧
    acceptRegion (([], []) : Str × Str) = false := by
  exact ⟨auto_detect_region_eq_find, by decide⟩

/-- C2 counterexample: a single listing record with four fields whose size
field is not numeric makes the whole enumeration raise (modelled as none) —
refuting that malformed records are silently skipped and never fail the
enumeration. -/
theorem c2_parse_counterexample :
    list_s3_objects (str "2025-03-27 15:48:38 notanumber path/to/object.ext") [] =
      none := by
  decide

/-- C2 (amended): a record with fewer than four whitespace-separated fields
(a missing key field) is silently skipped and the remaining records are still
parsed; but a record with at least four fields whose size field does not
parse as an integer raises and fails the whole enumeration. -/
theorem c2_parse_skip_or_raise :
    (∀ (l : Str) (ls : List Str), (splitWs l).length < 4 →
      parseLines (l :: ls) = parseLines ls) ∧
    (∀ (l : Str) (ls : List Str), 4 ≤ (splitWs l).length →
      pyInt? ((splitWs l).getD 2 []) = none →
      parseLines (l :: ls) = none) := by
  constructor
  · intro l ls h
    have hp : parseLine l = some none := by
      simp [parseLine, Nat.not_le.mpr h]
    simp [parseLines, hp]
  · intro l ls h4 hint
    have hp : parseLine l = none := by
      simp only [parseLine]
      rw [if_pos h4, hint]
    simp [parseLines, hp]

/-- C2 witness: the amended parsing theorem applied at a three-field record
(skipped, the later good record survives) and at a four-field record with a
non-numeric size (the whole parse fails). -/
theorem c2_parse_skip_or_raise_witness :
    parseLines [str "only three fields", str "2025-03-27 15:48:38 500 docs/a.txt"] =
      parseLines [str "2025-03-27 15:48:38 500 docs/a.txt"] ∧
    parseLines [str "2025-03-27 15:48:38 notanumber docs/a.txt"] = none :=
  ⟨c2_parse_skip_or_raise.1 (str "only three fields")
     [str "2025-03-27 15:48:38 500 docs/a.txt"] (by decide),
   c2_parse_skip_or_raise.2 (str "2025-03-27 15:48:38 notanumber docs/a.txt") []
     (by decide) (by decide)⟩

/-- Read-probe oracle whose every call succeeds with empty output. -/
def silentReadO : Str → Str × Str := fun _ => ([], [])

/-- Write-probe oracle whose upload and delete both succeed silently. -/
def silentWriteO : Str → (Str × Str) × (Str × Str) := fun _ => (([], []), ([], []))

/-- C6 counterexample: a transport-level enumeration error (the CLI
connection-failure text on stderr) produces exactly the same value as an
empty successful listing — some [] — and main takes the same early
no-objects return in both runs: the two outcomes are not distinguishable to
the caller, and no distinct EnumerationFailed outcome exists. -/
theorem c6_enumeration_counterexample :
    list_s3_objects [] (str "Could not connect to the endpoint URL") =
      list_s3_objects [] [] ∧
    main_after_region [] (str "Could not connect to the endpoint URL")
      silentReadO silentWriteO = RunOutcome.noObjects ∧
    main_after_region [] [] silentReadO silentWriteO = RunOutcome.noObjects := by
  decide

/-- C6 (amended): every transport-level error (non-empty stderr) during
enumeration yields the empty object list, indistinguishable from an empty
successful listing, and in both cases main returns early with the no-objects
outcome, invoking no permission probe and building no permissions map. -/
theorem c6_enumeration_conflated :
    (∀ o e : Str, e ≠ [] → list_s3_objects o e = some []) ∧
    (∀ (o e : Str) (ro : Str → Str × Str) (wo : Str → (Str × Str) × (Str × Str)),
      e ≠ [] → main_after_region o e ro wo = RunOutcome.noObjects) ∧
    (∀ (ro : Str → Str × Str) (wo : Str → (Str × Str) × (Str × Str)),
      main_after_region [] [] ro wo = RunOutcome.noObjects) := by
  have hlist : ∀ o e : Str, e ≠ [] → list_s3_objects o e = some [] := by
    intro o e h
    simp [list_s3_objects, h]
  have hempty : list_s3_objects [] [] = some [] := by decide
  refine ⟨hlist, fun o e ro wo h => ?_, fun ro wo => ?_⟩
  · simp [main_after_region, hlist o e h]
  · simp [main_after_region, hempty]

/-- C6 witness: the amended theorem applied at a concrete transport error. -/
theorem c6_enumeration_conflated_witness :
    list_s3_objects [] (str "Connection timed out") = some [] ∧
    main_after_region [] (str "Connection timed out") silentReadO silentWriteO =
      RunOutcome.noObjects :=
  ⟨c6_enumeration_conflated.1 [] (str "Connection timed out") (by decide),
   c6_enumeration_conflated.2.1 [] (str "Connection timed out") silentReadO silentWriteO
     (by decide)⟩

/-- C7: the permission map computed by the main loop is keyed by exactly the
folders of the grouping (same key list, in the same order), and the grouping
keys are exactly the distinct top-level folders derived from the object
sequence. -/
theorem c7_folder_views_agree :
    ∀ (objs : List StorageObject) (ro : Str → Str × Str)
      (wo : Str → (Str × Str) × (Str × Str)),
      (compute_permissions (group_objects_by_folder objs) ro wo).map (fun p => p.1) =
        gkeys (group_objects_by_folder objs) ∧
      (∀ f : Str, f ∈ gkeys (group_objects_by_folder objs) ↔
        f ∈ objs.map (fun o => topFolder o.key)) := by
  intro objs ro wo
  constructor
  · simp [compute_permissions, gkeys, List.map_map, Function.comp]
  · intro f
    have h := mem_gkeys_foldl objs [] f
    simpa [group_objects_by_folder, gkeys] using h

/-- C8: grouping is an exact partition — the group looked up under any folder
name holds exactly the input objects whose key has that top-level folder, in
input order; every stored entry equals that filter; group sizes sum to the
input length; folder names are pairwise distinct; and the folder of a key is
its prefix up to the first slash (the whole key when it has no slash). -/
theorem c8_folder_partition :
    ∀ objs : List StorageObject,
      (∀ f : Str, lookupGrp (group_objects_by_folder objs) f =
        objs.filter (fun o => decide (topFolder o.key = f))) ∧
      (∀ (f : Str) (l : List StorageObject), (f, l) ∈ group_objects_by_folder objs →
        l = objs.filter (fun o => decide (topFolder o.key = f))) ∧
      ((group_objects_by_folder objs).map (fun g => g.2.length)).sum = objs.length ∧
      (gkeys (group_objects_by_folder objs)).Nodup ∧
      (∀ k : Str, topFolder k = k.takeWhile (fun c => !(c == '/'))) := by
  intro objs
  have hnodup : (gkeys (group_objects_by_folder objs)).Nodup := by
    have := nodup_gkeys_foldl objs [] (by simp [gkeys])
    simpa [group_objects_by_folder] using this
  have hlook : ∀ f : Str, lookupGrp (group_objects_by_folder objs) f =
      objs.filter (fun o => decide (topFolder o.key = f)) := by
    intro f
    have := lookupGrp_foldl objs [] f
    simpa [group_objects_by_folder, lookupGrp] using this
  refine ⟨hlook, fun f l hm => ?_, ?_, hnodup, topFolder_eq_takeWhile⟩
  · have h1 := lookupGrp_of_mem (group_objects_by_folder objs) f l hnodup hm
    rw [← h1, hlook f]
  · have := gsum_len_foldl objs []
    simpa [group_objects_by_folder] using this

/-- Sample object mirroring the docs entry of the spec scenario. -/
def sampleA : StorageObject := ⟨str "2025-03-27", str "15:48:38", 500, str "docs/a.txt"⟩

/-- Sample object mirroring the public entry of the spec scenario. -/
def sampleB : StorageObject := ⟨str "2025-03-27", str "15:48:39", 0, str "public/readme.md"⟩

/-- Sample object mirroring the logs entry of the spec scenario. -/
def sampleC : StorageObject := ⟨str "2025-03-27", str "15:48:40", 5000000, str "logs/2024/x.log"⟩

/-- C8 witness: the partition theorem applied to the three-object scenario of
the spec, at the stored docs entry of the grouping. -/
theorem c8_folder_partition_witness :
    [sampleA] = ([sampleA, sampleB, sampleC] : List StorageObject).filter
      (fun o => decide (topFolder o.key = str "docs")) :=
  (c8_folder_partition [sampleA, sampleB, sampleC]).2.1 (str "docs") [sampleA] (by decide)

/-- C9: whenever main reaches its report, the reported total size is the sum
of the sizes of the reported object sequence and the reported total count is
its length; both also agree with the totals recomputed from the folder
grouping of the report, and on the empty sequence the derivations are 0. -/
theorem c9_totals_derived :
    ∀ (o e : Str) (ro : Str → Str × Str) (wo : Str → (Str × Str) × (Str × Str))
      (objs : List StorageObject) (groups : List (Str × List StorageObject))
      (perms : List (Str × Bool × Bool)) (ts : Int) (tf : Nat),
      main_after_region o e ro wo = RunOutcome.report objs groups perms ts tf →
      ts = (objs.map (fun x => x.size)).sum ∧
      tf = objs.length ∧
      ts = (groups.map (fun g => (g.2.map (fun x => x.size)).sum)).sum ∧
      tf = (groups.map (fun g => g.2.length)).sum ∧
      total_size [] = 0 ∧ total_files [] = 0 := by
  intro o e ro wo objs groups perms ts tf h
  unfold main_after_region at h
  cases hls : list_s3_objects o e with
  | none => rw [hls] at h; cases h
  | some l =>
    rw [hls] at h
    cases l with
    | nil => cases h
    | cons x xs =>
      simp only at h
      injection h with h1 h2 h3 h4 h5
      subst h1
      subst h2
      subst h3
      subst h4
      subst h5
      refine ⟨rfl, rfl, ?_, ?_, rfl, rfl⟩
      · have := gsum_size_foldl (x :: xs) []
        simp only [group_objects_by_folder]
        rw [this]
        simp [total_size]
      · have := gsum_len_foldl (x :: xs) []
        simp only [group_objects_by_folder]
        rw [this]
        simp [total_files]

/-- C9 witness: the totals theorem applied to a concrete one-object run. -/
theorem c9_totals_derived_witness :
    (500 : Int) = (([sampleA] : List StorageObject).map (fun x => x.size)).sum ∧
    1 = ([sampleA] : List StorageObject).length ∧
    (500 : Int) = (([(str "docs", [sampleA])] :
      List (Str × List StorageObject)).map (fun g => (g.2.map (fun x => x.size)).sum)).sum ∧
    1 = (([(str "docs", [sampleA])] :
      List (Str × List StorageObject)).map (fun g => g.2.length)).sum ∧
    total_size [] = 0 ∧ total_files [] = 0 :=
  c9_totals_derived (str "2025-03-27 15:48:38 500 docs/a.txt") [] silentReadO silentWriteO
    [sampleA] [(str "docs", [sampleA])] [(str "docs", true, true)] 500 1 (by decide)

/-- C10: a listing line splitting into five or more whitespace-separated
fields (an object key containing whitespace) yields, when it parses, an
object whose key is the fourth field alone; the fifth field — the dropped
remainder of the real key — is non-empty, so part of the key is silently
lost. -/
theorem c10_key_truncated_at_whitespace :
    ∀ (line : Str) (obj : StorageObject),
      5 ≤ (splitWs line).length →
      parseLine line = some (some obj) →
      obj.key = (splitWs line).getD 3 [] ∧ (splitWs line).getD 4 [] ≠ [] := by
  intro line obj h5 hp
  constructor
  · simp only [parseLine] at hp
    rw [if_pos (by omega)] at hp
    cases hint : pyInt? ((splitWs line).getD 2 []) with
    | none => rw [hint] at hp; cases hp
    | some n =>
      rw [hint] at hp
      injection hp with hp'
      injection hp' with hp''
      rw [← hp'']
  · have hlt : 4 < (splitWs line).length := by omega
    have hg : (splitWs line).getD 4 [] = (splitWs line).get ⟨4, hlt⟩ := by
      simp [List.getD_eq_getElem?_getD, List.getElem?_eq_getElem hlt]
    rw [hg]
    exact splitWsAux_tok_ne_nil line [] _ (List.get_mem _ _ _)

/-- C10 witness: the truncation theorem applied at a concrete listing line
whose object key contains a space; the parsed key is the fragment before the
space. -/
theorem c10_key_truncated_at_whitespace_witness :
    (⟨str "2025-03-27", str "15:48:38", 42, str "my"⟩ : StorageObject).key =
      (splitWs (str "2025-03-27 15:48:38 42 my file.txt")).getD 3 [] ∧
    (splitWs (str "2025-03-27 15:48:38 42 my file.txt")).getD 4 [] ≠ [] :=
  c10_key_truncated_at_whitespace (str "2025-03-27 15:48:38 42 my file.txt")
    ⟨str "2025-03-27", str "15:48:38", 42, str "my"⟩ (by decide) (by decide)
